import Mathlib

/-!
Verification of the selectionBiasChallenge mask pipeline.

The repository has two core source files:
* step5_create_masked.py : create_masked_stipple applies a mask raster to a
  stippled raster (cells whose mask value is strictly below a threshold are
  set to the background value 1.0).
* step4_create_block_letter.py : create_block_letter_s renders a glyph into
  a white raster via PIL and normalizes the byte image to [0, 1];
  _create_simple_block_letter is its procedural fallback.

Rasters (numpy 2-D float arrays) are embedded as lists of rows of rationals.
The PIL drawing backend is abstracted as a byte grid (values 0..255, the
invariant of an 8-bit grayscale image); the numpy conversion
np.array(img, dtype=np.float32) / 255.0 is embedded exactly.
-/

namespace SelectionBias

/-- A 2-D raster: a list of rows of rational cell values
(numpy 2-D float array at the value level). -/
abbrev Raster := List (List ℚ)

/-- The numpy shape (rows, columns) of a raster.  For the rectangular arrays
numpy produces, the column count is the length of the first row. -/
def shape (img : Raster) : Nat × Nat := (img.length, (img.headD []).length)

/-- A raster is rectangular with the given numbers of rows and columns. -/
def isRect (img : Raster) (h w : Nat) : Prop :=
  img.length = h ∧ ∀ row ∈ img, row.length = w

instance (img : Raster) (h w : Nat) : Decidable (isRect img h w) := by
  unfold isRect; infer_instance

/-- The cell of a raster at row r, column c (0 outside the raster). -/
def cell (img : Raster) (r c : Nat) : ℚ := (img.getD r []).getD c 0

/-- Error raised by create_masked_stipple when the two rasters disagree in
shape (the ValueError of step5_create_masked.py line 36); it carries both
shapes. -/
inductive MaskError where
  | shapeMismatch (stippleShape maskShape : Nat × Nat)
deriving DecidableEq, Repr

/-- Lines 39-47 of step5_create_masked.py at the value level: copy the
stipple raster and set every cell whose mask value is strictly below the
threshold to the background value 1.0
(mask_areas = mask_img < threshold; masked_stipple[mask_areas] = 1.0). -/
def mask_assign (stipple mask : Raster) (threshold : ℚ) : Raster :=
  List.zipWith
    (fun srow mrow =>
      List.zipWith (fun s m => if m < threshold then 1 else s) srow mrow)
    stipple mask

/-- create_masked_stipple of step5_create_masked.py: reject mismatched
shapes with an error carrying both shapes, otherwise return the masked copy
of the stipple raster. -/
def create_masked_stipple (stipple mask : Raster) (threshold : ℚ) :
    Except MaskError Raster :=
  if shape stipple ≠ shape mask then
    .error (.shapeMismatch (shape stipple) (shape mask))
  else
    .ok (mask_assign stipple mask threshold)

/-- Python int() applied to a rational: truncation toward zero
(line 42 of step4_create_block_letter.py, font_size = int(height * font_size_ratio)). -/
def pyInt (q : ℚ) : Int := q.num.tdiv q.den

/-- Line 42 of step4_create_block_letter.py:
font_size = int(height * font_size_ratio). -/
def font_size (height : Nat) (font_size_ratio : ℚ) : Int :=
  pyInt ((height : ℚ) * font_size_ratio)

/-- Modelled from the spec: the nominal glyph size as section 4.1 words it,
round(height * sizeRatio), rounding to the nearest integer.  Declared to be
compared against font_size, which embeds the source. -/
def font_size_spec (height : Nat) (font_size_ratio : ℚ) : Int :=
  round ((height : ℚ) * font_size_ratio)

/-- The numpy conversion at lines 96 and 138 of step4_create_block_letter.py:
np.array(img, dtype=np.float32) / 255.0, where pix is the byte grid of the
8-bit grayscale PIL image (row r, column c).  The array of a
(width, height) PIL image has shape (height, width). -/
def pilToRaster (height width : Nat) (pix : Nat → Nat → Nat) : Raster :=
  (List.range height).map fun r => (List.range width).map fun c => (pix r c : ℚ) / 255

/-- The outcomes of the external rendering calls of
step4_create_block_letter.py, abstracted: whether each candidate font path
resolves (lines 55-66), whether ImageFont.load_default succeeds (lines
70-72), and the byte grids of the PIL image after draw.text (line 93,
depending on the computed font size) and after the two draw.ellipse calls of
the procedural fallback (lines 122-135). -/
structure RenderEnv where
  fontAttempts : List Bool
  defaultOk : Bool
  glyphPix : Int → Nat → Nat → Nat
  ellipsePix : Nat → Nat → Nat

/-- The font-candidate loop of lines 54-66: take the first candidate that
resolves; a failure (missing path or a caught exception) advances to the
next candidate. -/
def find_font : List Bool → Bool
  | [] => false
  | a :: rest => if a then true else find_font rest

/-- The test letter.upper() == "S" of step4_create_block_letter.py line 117.
Python's str.upper uses the full Unicode case mapping: the characters whose
uppercase is the one-character string "S" are exactly 'S' itself,
's' (U+0073) and the long s 'ſ' (U+017F); every other character (the German
sharp s included, whose uppercase is the two-character "SS") fails the
test. -/
def upper_is_S (letter : Char) : Bool :=
  letter = 'S' || letter = 's' || letter = 'ſ'

/-- _create_simple_block_letter of step4_create_block_letter.py: a white
(255) image on which the two ellipse outlines are drawn only when
letter.upper() == "S"; any other letter leaves the image untouched. -/
def _create_simple_block_letter (height width : Nat) (letter : Char)
    (env : RenderEnv) : Raster :=
  if upper_is_S letter then pilToRaster height width env.ellipsePix
  else pilToRaster height width (fun _ _ => 255)

/-- create_block_letter_s of step4_create_block_letter.py: if a candidate
font resolves, or the default font loads, the glyph is drawn with the font
at size font_size and the byte image is normalized; otherwise the procedural
fallback runs.  Every exception of the font path is caught by the source
(lines 56-66, 70-76, 79-87), so the control flow is total. -/
def create_block_letter_s (height width : Nat) (letter : Char)
    (font_size_ratio : ℚ) (env : RenderEnv) : Raster :=
  if find_font env.fontAttempts || env.defaultOk then
    pilToRaster height width (env.glyphPix (font_size height font_size_ratio))
  else
    _create_simple_block_letter height width letter env

/-- A store of numpy arrays, used to state the aliasing guarantee of
create_masked_stipple: references 0..next-1 are live arrays. -/
structure Heap where
  arrays : Nat → Raster
  next : Nat

/-- Allocate a fresh array holding v; returns its reference. -/
def Heap.alloc (h : Heap) (v : Raster) : Nat × Heap :=
  (h.next, ⟨fun i => if i = h.next then v else h.arrays i, h.next + 1⟩)

/-- Overwrite the array at reference r with v. -/
def Heap.write (h : Heap) (r : Nat) (v : Raster) : Heap :=
  ⟨fun i => if i = r then v else h.arrays i, h.next⟩

/-- create_masked_stipple with the array mutations explicit:
stipple_img.copy() (line 39) allocates a fresh array, and the in-place
assignment masked_stipple[mask_areas] = 1.0 (line 47) writes only to that
fresh array.  Returns the reference of the new masked array together with
the heap after the call. -/
def create_masked_stipple_heap (h : Heap) (stippleRef maskRef : Nat)
    (threshold : ℚ) : Except MaskError (Nat × Heap) :=
  let stipple := h.arrays stippleRef
  let mask := h.arrays maskRef
  if shape stipple ≠ shape mask then
    .error (.shapeMismatch (shape stipple) (shape mask))
  else
    let alloc := h.alloc stipple
    let h2 := alloc.2.write alloc.1 (mask_assign stipple mask threshold)
    .ok (alloc.1, h2)

/-- The number of cells of a raster equal to 0.0
(np.sum(masked_stipple == 0.0), line 51 of step5_create_masked.py). -/
def countEq0 (img : Raster) : Nat :=
  (img.map fun row => row.countP fun x => decide (x = 0)).sum

/-- The number of cells of a raster strictly below t
(np.sum(mask_img < threshold), line 50 of step5_create_masked.py). -/
def countBelow (img : Raster) (t : ℚ) : Nat :=
  (img.map fun row => row.countP fun x => decide (x < t)).sum

/-- A fully populated stipple field: every cell is 0.0 (a sample point). -/
def allZero (h w : Nat) : Raster := List.replicate h (List.replicate w 0)

/-! ### Helper lemmas -/

lemma headD_length_of_rect {s : Raster} {h w : Nat} (hs : isRect s h w)
    (hpos : 0 < h) : (s.headD []).length = w := by
  obtain ⟨h1, h2⟩ := hs
  cases s with
  | nil => simp at h1; omega
  | cons a tl => simpa using h2 a (by simp)

lemma shape_of_rect {s : Raster} {h w : Nat} (hs : isRect s h w)
    (hpos : 0 < h) : shape s = (h, w) := by
  have hhead := headD_length_of_rect hs hpos
  unfold shape
  rw [hs.1, hhead]

lemma shape_eq_of_rect {s m : Raster} {h w : Nat}
    (hs : isRect s h w) (hm : isRect m h w) : shape s = shape m := by
  rcases Nat.eq_zero_or_pos h with hz | hpos
  · subst hz
    have hs0 : s = [] := List.length_eq_zero.mp hs.1
    have hm0 : m = [] := List.length_eq_zero.mp hm.1
    rw [hs0, hm0]
  · rw [shape_of_rect hs hpos, shape_of_rect hm hpos]

lemma create_masked_stipple_ok {s m : Raster} {t : ℚ} (h : shape s = shape m) :
    create_masked_stipple s m t = .ok (mask_assign s m t) := by
  simp [create_masked_stipple, h]

lemma rect_mask_assign {s m : Raster} {h w : Nat} {t : ℚ}
    (hs : isRect s h w) (hm : isRect m h w) : isRect (mask_assign s m t) h w := by
  have hlen : (mask_assign s m t).length = h := by
    simp [mask_assign, hs.1, hm.1]
  refine ⟨hlen, ?_⟩
  intro row hrow
  rw [List.mem_iff_getElem] at hrow
  obtain ⟨i, hi, hrw⟩ := hrow
  have hih : i < h := hlen ▸ hi
  have his : i < s.length := hs.1 ▸ hih
  have him : i < m.length := hm.1 ▸ hih
  have hsr : (s[i]).length = w := hs.2 _ (List.getElem_mem his)
  have hmr : (m[i]).length = w := hm.2 _ (List.getElem_mem him)
  rw [← hrw]
  simp only [mask_assign, List.getElem_zipWith, List.length_zipWith]
  omega

lemma cell_mask_assign {s m : Raster} {h w : Nat} {t : ℚ} {r c : Nat}
    (hs : isRect s h w) (hm : isRect m h w) (hr : r < h) (hc : c < w) :
    cell (mask_assign s m t) r c =
      if cell m r c < t then 1 else cell s r c := by
  have his : r < s.length := hs.1 ▸ hr
  have him : r < m.length := hm.1 ▸ hr
  have hlen : r < (mask_assign s m t).length := by
    simp only [mask_assign, List.length_zipWith]
    omega
  have hsr : (s[r]).length = w := hs.2 _ (List.getElem_mem his)
  have hmr : (m[r]).length = w := hm.2 _ (List.getElem_mem him)
  have hcs : c < (s[r]).length := hsr ▸ hc
  have hcm : c < (m[r]).length := hmr ▸ hc
  have hcz : c < (List.zipWith (fun s m => if m < t then 1 else s)
      (s[r]) (m[r])).length := by
    simp only [List.length_zipWith]; omega
  have h2 : (mask_assign s m t)[r] =
      List.zipWith (fun s m => if m < t then 1 else s) (s[r]) (m[r]) := by
    simp only [mask_assign, List.getElem_zipWith]
  have hcellm : cell m r c = (m[r])[c] := by
    simp only [cell, List.getD_eq_getElem?_getD]
    rw [List.getElem?_eq_getElem him, Option.getD_some,
      List.getElem?_eq_getElem hcm, Option.getD_some]
  have hcells : cell s r c = (s[r])[c] := by
    simp only [cell, List.getD_eq_getElem?_getD]
    rw [List.getElem?_eq_getElem his, Option.getD_some,
      List.getElem?_eq_getElem hcs, Option.getD_some]
  rw [hcellm, hcells]
  simp only [cell, List.getD_eq_getElem?_getD]
  rw [List.getElem?_eq_getElem hlen, Option.getD_some, h2,
    List.getElem?_eq_getElem hcz, Option.getD_some, List.getElem_zipWith]

lemma mask_assign_row_idem (t : ℚ) (srow mrow : List ℚ) :
    List.zipWith (fun s m => if m < t then 1 else s)
      (List.zipWith (fun s m => if m < t then 1 else s) srow mrow) mrow =
    List.zipWith (fun s m => if m < t then 1 else s) srow mrow := by
  induction srow generalizing mrow with
  | nil => simp
  | cons a srest ih =>
    cases mrow with
    | nil => simp
    | cons b mrest =>
      simp only [List.zipWith_cons_cons, ih]
      by_cases hb : b < t <;> simp [hb]

lemma mask_assign_idem (s m : Raster) (t : ℚ) :
    mask_assign (mask_assign s m t) m t = mask_assign s m t := by
  unfold mask_assign
  induction s generalizing m with
  | nil => simp
  | cons srow srest ih =>
    cases m with
    | nil => simp
    | cons mrow mrest =>
      simp only [List.zipWith_cons_cons, ih]
      rw [mask_assign_row_idem]

lemma shape_mask_assign {s m : Raster} {t : ℚ} (h : shape s = shape m) :
    shape (mask_assign s m t) = shape s := by
  cases s with
  | nil => simp [mask_assign]
  | cons srow srest =>
    cases m with
    | nil => simp [shape] at h
    | cons mrow mrest =>
      simp only [shape, Prod.mk.injEq, List.length_cons, List.headD_cons] at h
      simp only [mask_assign, List.zipWith_cons_cons, shape, List.length_cons,
        List.headD_cons, List.length_zipWith, Prod.mk.injEq]
      omega

lemma pilToRaster_rect (h w : Nat) (pix : Nat → Nat → Nat) :
    isRect (pilToRaster h w pix) h w := by
  constructor
  · simp [pilToRaster]
  · intro row hrow
    simp only [pilToRaster, List.mem_map, List.mem_range] at hrow
    obtain ⟨r, _, rfl⟩ := hrow
    simp

lemma pilToRaster_mem_unit {h w : Nat} {pix : Nat → Nat → Nat}
    (hb : ∀ r c, pix r c ≤ 255) :
    ∀ row ∈ pilToRaster h w pix, ∀ x ∈ row, 0 ≤ x ∧ x ≤ 1 := by
  intro row hrow x hx
  simp only [pilToRaster, List.mem_map, List.mem_range] at hrow
  obtain ⟨r, _, rfl⟩ := hrow
  simp only [List.mem_map, List.mem_range] at hx
  obtain ⟨c, _, rfl⟩ := hx
  constructor
  · positivity
  · rw [div_le_one (by norm_num)]
    exact_mod_cast hb r c

lemma block_letter_rect (h w : Nat) (letter : Char) (ratio : ℚ)
    (env : RenderEnv) :
    isRect (create_block_letter_s h w letter ratio env) h w := by
  unfold create_block_letter_s _create_simple_block_letter
  split
  · exact pilToRaster_rect h w _
  · split <;> exact pilToRaster_rect h w _

lemma allZero_rect (h w : Nat) : isRect (allZero h w) h w := by
  constructor
  · simp [allZero]
  · intro row hrow
    rw [List.eq_of_mem_replicate hrow]
    simp

lemma countEq0_allZero (h w : Nat) : countEq0 (allZero h w) = h * w := by
  have hrow : (List.replicate w (0:ℚ)).countP (fun x => decide (x = 0)) = w := by
    have h1 : ∀ a ∈ List.replicate w (0:ℚ), (fun x => decide (x = 0)) a = true := by
      intro a ha
      simp [List.eq_of_mem_replicate ha]
    have h2 := List.countP_eq_length.mpr h1
    simpa using h2
  induction h with
  | zero => simp [countEq0, allZero]
  | succ n ih =>
    simp only [allZero, List.replicate_succ, countEq0, List.map_cons,
      List.sum_cons] at ih ⊢
    rw [hrow, ih, Nat.succ_mul]
    omega

lemma countBelow_le {m : Raster} {w : Nat} {t : ℚ}
    (hm : ∀ row ∈ m, row.length = w) : countBelow m t ≤ m.length * w := by
  induction m with
  | nil => simp [countBelow]
  | cons mrow rest ih =>
    have h1 : mrow.countP (fun x => decide (x < t)) ≤ w := by
      have := List.countP_le_length (p := fun x => decide (x < t)) (l := mrow)
      rw [hm mrow (by simp)] at this
      exact this
    have h2 : countBelow rest t ≤ rest.length * w :=
      ih (fun row hr => hm row (by simp [hr]))
    simp only [countBelow, List.map_cons, List.sum_cons, List.length_cons] at h2 ⊢
    rw [Nat.succ_mul]
    omega

lemma row_count_zero (t : ℚ) (mrow : List ℚ) :
    (List.zipWith (fun s m => if m < t then 1 else s)
        (List.replicate mrow.length (0:ℚ)) mrow).countP (fun x => decide (x = 0))
      = mrow.length - mrow.countP (fun x => decide (x < t)) := by
  induction mrow with
  | nil => simp
  | cons b rest ih =>
    have hle : rest.countP (fun x => decide (x < t)) ≤ rest.length :=
      List.countP_le_length _
    simp only [List.length_cons, List.replicate_succ, List.zipWith_cons_cons,
      List.countP_cons]
    by_cases hb : b < t
    · simp only [hb, if_true, ih]
      norm_num
      omega
    · simp only [hb, if_false, ih]
      norm_num
      omega

lemma countEq0_mask_assign_allZero {m : Raster} {w : Nat} {t : ℚ}
    (hm : ∀ row ∈ m, row.length = w) :
    countEq0 (mask_assign (allZero m.length w) m t)
      = m.length * w - countBelow m t := by
  induction m with
  | nil => simp [countEq0, countBelow, mask_assign, allZero]
  | cons mrow rest ih =>
    have hrow : mrow.length = w := hm mrow (by simp)
    have hrest : ∀ row ∈ rest, row.length = w := fun row hr => hm row (by simp [hr])
    have hle : mrow.countP (fun x => decide (x < t)) ≤ w := by
      have := List.countP_le_length (p := fun x => decide (x < t)) (l := mrow)
      omega
    have hbl : countBelow rest t ≤ rest.length * w := countBelow_le hrest
    have hrc := row_count_zero t mrow
    rw [hrow] at hrc
    simp only [List.length_cons, allZero, List.replicate_succ, mask_assign,
      List.zipWith_cons_cons, countEq0, List.map_cons, List.sum_cons,
      countBelow] at ih hrc ⊢
    rw [hrc, ih hrest]
    rw [Nat.succ_mul]
    simp only [countBelow, allZero] at hbl ⊢
    omega

lemma countBelow_pos {img : Raster} {t : ℚ} {row : List ℚ} {x : ℚ}
    (hrow : row ∈ img) (hx : x ∈ row) (hlt : x < t) : 1 ≤ countBelow img t := by
  unfold countBelow
  have h1 : 0 < row.countP (fun x => decide (x < t)) :=
    List.countP_pos_iff.mpr ⟨x, hx, by simpa using hlt⟩
  have h2 : row.countP (fun x => decide (x < t)) ∈
      img.map (fun row => row.countP fun x => decide (x < t)) :=
    List.mem_map_of_mem _ hrow
  have h3 := List.single_le_sum (l := img.map
    (fun row => row.countP fun x => decide (x < t))) (fun _ _ => Nat.zero_le _) _ h2
  omega

lemma pyInt_eq_floor {q : ℚ} (hq : 0 ≤ q) : pyInt q = ⌊q⌋ := by
  unfold pyInt
  rw [Rat.floor_def]
  exact Int.tdiv_eq_ediv (Rat.num_nonneg.mpr hq) (Int.natCast_nonneg q.den)

/-! ### Claim theorems -/

/-- Claim C1: for every stipple raster and mask raster of identical shape and
every threshold, create_masked_stipple returns a raster of the same shape in
which every cell whose mask value is strictly below the threshold equals
exactly 1.0, and every other cell — including a cell whose mask value equals
the threshold, which is kept — equals the corresponding input stipple cell
unchanged. -/
theorem C1_apply_pointwise {stipple mask : Raster} {h w : Nat} {t : ℚ}
    {r c : Nat} (hs : isRect stipple h w) (hm : isRect mask h w)
    (hr : r < h) (hc : c < w) :
    ∃ out, create_masked_stipple stipple mask t = .ok out ∧ isRect out h w ∧
      (cell mask r c < t → cell out r c = 1) ∧
      (¬ cell mask r c < t → cell out r c = cell stipple r c) := by
  refine ⟨mask_assign stipple mask t,
    create_masked_stipple_ok (shape_eq_of_rect hs hm),
    rect_mask_assign hs hm, ?_, ?_⟩
  · intro hlt
    rw [cell_mask_assign hs hm hr hc, if_pos hlt]
  · intro hge
    rw [cell_mask_assign hs hm hr hc, if_neg hge]

/-- Witness for C1 at threshold 1/2, checking both a masked cell and a cell
whose mask value is exactly the threshold. -/
theorem C1_apply_pointwise_witness :
    isRect [[(0:ℚ), 1/4], [1/2, 0]] 2 2 ∧ isRect [[(0:ℚ), 1/2], [3/4, 1/4]] 2 2 ∧
    (0:Nat) < 2 ∧ (1:Nat) < 2 ∧
    (∃ out, create_masked_stipple [[(0:ℚ), 1/4], [1/2, 0]]
        [[(0:ℚ), 1/2], [3/4, 1/4]] (1/2) = .ok out ∧ isRect out 2 2 ∧
      (cell [[(0:ℚ), 1/2], [3/4, 1/4]] 0 1 < 1/2 → cell out 0 1 = 1) ∧
      (¬ cell [[(0:ℚ), 1/2], [3/4, 1/4]] 0 1 < 1/2 →
        cell out 0 1 = cell [[(0:ℚ), 1/4], [1/2, 0]] 0 1)) :=
  ⟨by decide, by decide, by decide, by decide,
    C1_apply_pointwise (by decide) (by decide) (by decide) (by decide)⟩

/-- Claim C2: for every pair of rasters whose shapes differ,
create_masked_stipple fails with the shape-mismatch error carrying both
shapes and produces no output raster. -/
theorem C2_shape_mismatch {stipple mask : Raster} {t : ℚ}
    (h : shape stipple ≠ shape mask) :
    create_masked_stipple stipple mask t =
      .error (.shapeMismatch (shape stipple) (shape mask)) := by
  simp [create_masked_stipple, h]

/-- Witness for C2: a 1-row 2-column stipple against a 1-row 1-column mask. -/
theorem C2_shape_mismatch_witness :
    shape [[(0:ℚ), 0]] ≠ shape [[(0:ℚ)]] ∧
    create_masked_stipple [[(0:ℚ), 0]] [[(0:ℚ)]] (1/2) =
      .error (.shapeMismatch (shape [[(0:ℚ), 0]]) (shape [[(0:ℚ)]])) :=
  ⟨by decide, C2_shape_mismatch (by decide)⟩

/-- Claim C5, counterexample: the stipple raster [[2]] contains the cell 2.0
outside [0, 1] (and outside the StippleField set, which contains only 0.0
and 1.0), yet create_masked_stipple raises no error at all: it returns the
out-of-range value unchanged instead of failing with an
InvalidRasterValue error. -/
theorem C5_counterexample :
    create_masked_stipple [[(2:ℚ)]] [[(1:ℚ)]] (1/2) = .ok [[(2:ℚ)]] := by
  norm_num [create_masked_stipple, shape, mask_assign]

/-- Claim C5 as amended: create_masked_stipple performs no value validation
at all; whenever the two shapes match it succeeds, regardless of any cell
value outside [0, 1], and out-of-range values are silently accepted. -/
theorem C5_amended_no_validation {stipple mask : Raster} {t : ℚ}
    (h : shape stipple = shape mask) :
    ∃ out, create_masked_stipple stipple mask t = .ok out :=
  ⟨mask_assign stipple mask t, create_masked_stipple_ok h⟩

/-- Witness for the amended C5 on an input with a cell outside [0, 1]. -/
theorem C5_amended_no_validation_witness :
    shape [[(2:ℚ)]] = shape [[(1:ℚ)]] ∧
    (∃ out, create_masked_stipple [[(2:ℚ)]] [[(1:ℚ)]] (1/2) = .ok out) :=
  ⟨by decide, C5_amended_no_validation (by decide)⟩

/-- Claim C6: for matching shapes, create_masked_stipple is idempotent under
a fixed mask and threshold: applying it twice in sequence yields exactly the
raster of a single application. -/
theorem C6_idempotent {stipple mask : Raster} {t : ℚ}
    (h : shape stipple = shape mask) :
    (create_masked_stipple stipple mask t).bind
        (fun out => create_masked_stipple out mask t) =
      create_masked_stipple stipple mask t := by
  rw [create_masked_stipple_ok h]
  have h2 : shape (mask_assign stipple mask t) = shape mask :=
    (shape_mask_assign h).trans h
  show create_masked_stipple (mask_assign stipple mask t) mask t = _
  rw [create_masked_stipple_ok h2, mask_assign_idem]

/-- Witness for C6 on a concrete 2-by-2 pair. -/
theorem C6_idempotent_witness :
    shape [[(0:ℚ), 1], [0, 1]] = shape [[(0:ℚ), 1], [1, 0]] ∧
    (create_masked_stipple [[(0:ℚ), 1], [0, 1]] [[(0:ℚ), 1], [1, 0]]
        (1/2)).bind
        (fun out => create_masked_stipple out [[(0:ℚ), 1], [1, 0]] (1/2)) =
      create_masked_stipple [[(0:ℚ), 1], [0, 1]] [[(0:ℚ), 1], [1, 0]] (1/2) :=
  ⟨by decide, C6_idempotent (by decide)⟩

/-- Claim C3: for all valid positive dimensions, create_block_letter_s
returns a raster whose shape is exactly (height, width) with every value in
the closed interval [0, 1].  The byte bounds are the invariant of the 8-bit
grayscale PIL image the rendering backend produces. -/
theorem C3_generate_shape_range {h w : Nat} {letter : Char} {ratio : ℚ}
    {env : RenderEnv} (_hh : 0 < h) (_hw : 0 < w)
    (hg : ∀ fs r c, env.glyphPix fs r c ≤ 255)
    (he : ∀ r c, env.ellipsePix r c ≤ 255) :
    isRect (create_block_letter_s h w letter ratio env) h w ∧
    ∀ row ∈ create_block_letter_s h w letter ratio env, ∀ x ∈ row,
      0 ≤ x ∧ x ≤ 1 := by
  refine ⟨block_letter_rect h w letter ratio env, ?_⟩
  unfold create_block_letter_s _create_simple_block_letter
  split
  · exact pilToRaster_mem_unit (fun r c => hg _ r c)
  · split
    · exact pilToRaster_mem_unit he
    · exact pilToRaster_mem_unit (fun _ _ => le_refl 255)

/-- Witness for C3 with 2-by-3 dimensions and an all-dark byte grid. -/
theorem C3_generate_shape_range_witness :
    (0:Nat) < 2 ∧ (0:Nat) < 3 ∧
    (∀ fs r c, (RenderEnv.mk [] true (fun _ _ _ => 0) (fun _ _ => 0)).glyphPix
      fs r c ≤ 255) ∧
    (∀ r c, (RenderEnv.mk [] true (fun _ _ _ => 0) (fun _ _ => 0)).ellipsePix
      r c ≤ 255) ∧
    (isRect (create_block_letter_s 2 3 'S' (9/10)
        (RenderEnv.mk [] true (fun _ _ _ => 0) (fun _ _ => 0))) 2 3 ∧
    ∀ row ∈ create_block_letter_s 2 3 'S' (9/10)
        (RenderEnv.mk [] true (fun _ _ _ => 0) (fun _ _ => 0)), ∀ x ∈ row,
      0 ≤ x ∧ x ≤ 1) :=
  ⟨by norm_num, by norm_num, by intro fs r c; norm_num, by intro r c; norm_num,
    C3_generate_shape_range (by norm_num) (by norm_num)
      (by intro fs r c; norm_num) (by intro r c; norm_num)⟩

/-- Claim C4, counterexample: at height 13 and ratio 9/10, the source
computes font_size = int(13 * 0.9) = int(11.7) = 11 (truncation), while
round(13 * 0.9) = 12, so the nominal glyph size is not computed by
rounding to nearest. -/
theorem C4_counterexample :
    font_size 13 (9/10) = 11 ∧ font_size_spec 13 (9/10) = 12 ∧
    font_size 13 (9/10) ≠ font_size_spec 13 (9/10) := by
  have h1 : font_size 13 (9/10) = 11 := by
    unfold font_size
    rw [pyInt_eq_floor (by norm_num), Int.floor_eq_iff]
    constructor <;> norm_num
  have h2 : font_size_spec 13 (9/10) = 12 := by
    unfold font_size_spec
    rw [round_eq, Int.floor_eq_iff]
    constructor <;> norm_num
  refine ⟨h1, h2, ?_⟩
  rw [h1, h2]
  decide

/-- Claim C4 as amended: for every height and every nonnegative ratio, the
nominal glyph size is int(height * font_size_ratio), i.e. truncation toward
zero, which on nonnegative arguments is the floor — not rounding to
nearest. -/
theorem C4_amended_truncation {height : Nat} {ratio : ℚ} (hr : 0 ≤ ratio) :
    font_size height ratio = ⌊(height : ℚ) * ratio⌋ := by
  unfold font_size
  exact pyInt_eq_floor (mul_nonneg (by positivity) hr)

/-- Witness for the amended C4 at height 13 and ratio 9/10. -/
theorem C4_amended_truncation_witness :
    (0:ℚ) ≤ 9/10 ∧ font_size 13 (9/10) = ⌊(13 : ℚ) * (9/10)⌋ :=
  ⟨by norm_num, C4_amended_truncation (by norm_num)⟩

/-- Claim C8: create_masked_stipple copies the stipple raster before
writing: on the heap model of the numpy arrays, the returned raster is a
fresh reference distinct from the input stipple reference, and the array
held by the stipple reference is unchanged by the call. -/
theorem C8_no_alias {hp : Heap} {stippleRef maskRef : Nat} {t : ℚ}
    (hlive : stippleRef < hp.next)
    (hsh : shape (hp.arrays stippleRef) = shape (hp.arrays maskRef)) :
    ∃ outRef hp2,
      create_masked_stipple_heap hp stippleRef maskRef t = .ok (outRef, hp2) ∧
      outRef ≠ stippleRef ∧
      hp2.arrays stippleRef = hp.arrays stippleRef := by
  have hne : stippleRef ≠ hp.next := Nat.ne_of_lt hlive
  refine ⟨hp.next,
    (hp.alloc (hp.arrays stippleRef)).2.write (hp.alloc (hp.arrays stippleRef)).1
      (mask_assign (hp.arrays stippleRef) (hp.arrays maskRef) t),
    ?_, fun hcontra => hne hcontra.symm, ?_⟩
  · simp [create_masked_stipple_heap, hsh, Heap.alloc]
  · simp [Heap.alloc, Heap.write, hne]

/-- Witness for C8 on a two-array heap. -/
theorem C8_no_alias_witness :
    (0:Nat) < (Heap.mk (fun _ => [[(0:ℚ)]]) 2).next ∧
    shape ((Heap.mk (fun _ => [[(0:ℚ)]]) 2).arrays 0) =
      shape ((Heap.mk (fun _ => [[(0:ℚ)]]) 2).arrays 1) ∧
    (∃ outRef hp2,
      create_masked_stipple_heap (Heap.mk (fun _ => [[(0:ℚ)]]) 2) 0 1 (1/2) =
        .ok (outRef, hp2) ∧
      outRef ≠ 0 ∧
      hp2.arrays 0 = (Heap.mk (fun _ => [[(0:ℚ)]]) 2).arrays 0) :=
  ⟨by decide, rfl, C8_no_alias (by decide) rfl⟩

/-- Claim C9: for every outcome of the font-resource probing (any pattern of
candidate failures, default-font failure included), create_block_letter_s
returns a raster of the requested positive dimensions; no branch of the
control flow raises to the caller, every font failure advancing to the next
candidate or to the procedural fallback. -/
theorem C9_never_raises {h w : Nat} {letter : Char} {ratio : ℚ}
    (env : RenderEnv) (hh : 0 < h) (_hw : 0 < w) :
    shape (create_block_letter_s h w letter ratio env) = (h, w) :=
  shape_of_rect (block_letter_rect h w letter ratio env) hh

/-- Witness for C9 with all five font candidates failing and the default
font failing as well, forcing the procedural fallback. -/
theorem C9_never_raises_witness :
    (0:Nat) < 2 ∧ (0:Nat) < 3 ∧
    shape (create_block_letter_s 2 3 'S' (9/10)
      (RenderEnv.mk [false, false, false, false, false] false
        (fun _ _ _ => 0) (fun _ _ => 0))) = (2, 3) :=
  ⟨by decide, by decide,
    C9_never_raises (RenderEnv.mk [false, false, false, false, false] false
      (fun _ _ _ => 0) (fun _ _ => 0)) (by decide) (by decide)⟩

/-- Claim C10: for every letter whose uppercase form is not S, the
procedural fallback draws nothing: it returns a raster of the requested
shape in which every cell is exactly 1.0 (the untouched white background),
rather than failing or rendering any glyph. -/
theorem C10_fallback_blank {h w : Nat} {letter : Char} {env : RenderEnv}
    (hne : upper_is_S letter = false) :
    isRect (_create_simple_block_letter h w letter env) h w ∧
    ∀ row ∈ _create_simple_block_letter h w letter env, ∀ x ∈ row, x = 1 := by
  unfold _create_simple_block_letter
  rw [if_neg (by simp [hne])]
  refine ⟨pilToRaster_rect h w _, ?_⟩
  intro row hrow x hx
  simp only [pilToRaster, List.mem_map, List.mem_range] at hrow
  obtain ⟨r, _, rfl⟩ := hrow
  simp only [List.mem_map, List.mem_range] at hx
  obtain ⟨c, _, rfl⟩ := hx
  norm_num

/-- Witness for C10 with the letter A. -/
theorem C10_fallback_blank_witness :
    upper_is_S 'A' = false ∧
    (isRect (_create_simple_block_letter 1 2 'A'
        (RenderEnv.mk [] false (fun _ _ _ => 0) (fun _ _ => 0))) 1 2 ∧
    ∀ row ∈ _create_simple_block_letter 1 2 'A'
        (RenderEnv.mk [] false (fun _ _ _ => 0) (fun _ _ => 0)),
      ∀ x ∈ row, x = 1) :=
  ⟨by decide, C10_fallback_blank (by decide)⟩

/-- Claim C7: with the mask generated for a 50-by-50 canvas with the default
glyph (the glyph marking at least one cell below the threshold) and a
stipple field that is all 0.0, the masked result contains strictly fewer
cells equal to 0.0 than the input, and the reduction equals exactly the
number of mask cells below the threshold. -/
theorem C7_end_to_end {env : RenderEnv} {out : Raster}
    (hmask : 1 ≤ countBelow (create_block_letter_s 50 50 'S' (9/10) env) (1/2))
    (hok : create_masked_stipple (allZero 50 50)
        (create_block_letter_s 50 50 'S' (9/10) env) (1/2) = .ok out) :
    countEq0 out < countEq0 (allZero 50 50) ∧
    countEq0 (allZero 50 50) - countEq0 out =
      countBelow (create_block_letter_s 50 50 'S' (9/10) env) (1/2) := by
  have hrect : isRect (create_block_letter_s 50 50 'S' (9/10) env) 50 50 :=
    block_letter_rect 50 50 'S' (9/10) env
  have hsh : shape (allZero 50 50) =
      shape (create_block_letter_s 50 50 'S' (9/10) env) :=
    shape_eq_of_rect (allZero_rect 50 50) hrect
  rw [create_masked_stipple_ok hsh] at hok
  have hout : out = mask_assign (allZero 50 50)
      (create_block_letter_s 50 50 'S' (9/10) env) (1/2) := by
    injection hok with h
    exact h.symm
  subst hout
  have hcnt := countEq0_mask_assign_allZero (w := 50) (t := 1/2) hrect.2
  rw [hrect.1] at hcnt
  have hle := countBelow_le (w := 50) (t := 1/2) hrect.2
  rw [hrect.1] at hle
  rw [countEq0_allZero, hcnt]
  omega

/-- Witness for C7: all five font candidates fail but the default font
loads, and the rendered glyph byte grid is all 0 (fully dark), so every mask
cell lies below the threshold. -/
theorem C7_end_to_end_witness :
    1 ≤ countBelow (create_block_letter_s 50 50 'S' (9/10)
      (RenderEnv.mk [] true (fun _ _ _ => 0) (fun _ _ => 0))) (1/2) ∧
    create_masked_stipple (allZero 50 50)
        (create_block_letter_s 50 50 'S' (9/10)
          (RenderEnv.mk [] true (fun _ _ _ => 0) (fun _ _ => 0))) (1/2) =
      .ok (mask_assign (allZero 50 50)
        (create_block_letter_s 50 50 'S' (9/10)
          (RenderEnv.mk [] true (fun _ _ _ => 0) (fun _ _ => 0))) (1/2)) ∧
    (countEq0 (mask_assign (allZero 50 50)
        (create_block_letter_s 50 50 'S' (9/10)
          (RenderEnv.mk [] true (fun _ _ _ => 0) (fun _ _ => 0))) (1/2)) <
      countEq0 (allZero 50 50) ∧
    countEq0 (allZero 50 50) - countEq0 (mask_assign (allZero 50 50)
        (create_block_letter_s 50 50 'S' (9/10)
          (RenderEnv.mk [] true (fun _ _ _ => 0) (fun _ _ => 0))) (1/2)) =
      countBelow (create_block_letter_s 50 50 'S' (9/10)
        (RenderEnv.mk [] true (fun _ _ _ => 0) (fun _ _ => 0))) (1/2)) := by
  have hm : 1 ≤ countBelow (create_block_letter_s 50 50 'S' (9/10)
      (RenderEnv.mk [] true (fun _ _ _ => 0) (fun _ _ => 0))) (1/2) := by
    have h0 : (0:Nat) ∈ List.range 50 := by simp
    show 1 ≤ countBelow ((List.range 50).map fun r =>
      (List.range 50).map fun c => (((0:Nat)):ℚ) / 255) (1/2)
    refine countBelow_pos (List.mem_map_of_mem _ h0)
      (List.mem_map_of_mem _ h0) ?_
    norm_num
  have hok : create_masked_stipple (allZero 50 50)
      (create_block_letter_s 50 50 'S' (9/10)
        (RenderEnv.mk [] true (fun _ _ _ => 0) (fun _ _ => 0))) (1/2) =
      .ok (mask_assign (allZero 50 50)
        (create_block_letter_s 50 50 'S' (9/10)
          (RenderEnv.mk [] true (fun _ _ _ => 0) (fun _ _ => 0))) (1/2)) :=
    create_masked_stipple_ok (shape_eq_of_rect (allZero_rect 50 50)
      (block_letter_rect 50 50 'S' (9/10)
        (RenderEnv.mk [] true (fun _ _ _ => 0) (fun _ _ => 0))))
  exact ⟨hm, hok, C7_end_to_end hm hok⟩

end SelectionBias
